import Mathlib

/-!
# otel-certinator: a shallow embedding of `main.go` and `server.go`

The program is a small Go HTTP front-end.  Its own code (the three request
handlers, `main`, `NewServer`, `AddHandlerFunc`, `Start`, `signalHandler`) is
translated function by function.  The pieces of the Go standard library it
calls (`http.Error`, `fmt.Fprint*`, `strconv.Atoi`, `http.ServeMux`,
`path.Clean`) are translated from the library sources of the Go release the
program was written for; what lies outside the modelled fragment is said so
at the definition.

Stateful code is written with explicit state passing: a handler maps the
state of its `http.ResponseWriter` to the state after the call, and the
process-level functions (`main`, `signalHandler`) produce the list of the
effects they perform, in order.
-/

namespace Certinator

/-! ## net/http: headers, requests, response writers -/

/-- Go `http.Header` and `url.Values`: a map from a key to a list of values,
kept as an association list (first entry for a key is the live one). -/
abbrev Values := List (String × List String)

/-- Map indexing `m[key]` on a `map[string][]string`: the nil (empty) slice
when the key is absent. -/
def Values.index (m : Values) (key : String) : List String :=
  match m.lookup key with
  | some vs => vs
  | none => []

/-- Go `Header.Set` / `Values.Set`: the key now maps to the single value. -/
def Values.Set (m : Values) (key value : String) : Values :=
  (key, [value]) :: m.filter (fun e => e.1 != key)

/-- Go `Header.Get` / `Values.Get`: first value of the key, or the empty string. -/
def Values.Get (m : Values) (key : String) : String :=
  match m.index key with
  | [] => ""
  | v :: _ => v

/-- The part of `url.URL` the program touches. -/
structure URL where
  Host : String
  Path : String
  RawQuery : String
  deriving DecidableEq, Repr

/-- The part of `http.Request` the program and `ServeMux` read.  `formData`
stands for the fields carried by the query string and the url-encoded body,
already decoded (what `url.ParseQuery` yields); `Form` is `r.Form`, nil until
`ParseForm` is called. -/
structure Request where
  Method : String
  URL : URL
  Host : String
  RequestURI : String
  ProtoMajor : Nat
  ProtoMinor : Nat
  Header : Values
  Body : String
  formData : Values
  Form : Option Values
  deriving DecidableEq, Repr

/-- Go `(*Request).ParseForm`: fills `r.Form` once; later calls keep it. -/
def Request.ParseForm (r : Request) : Request :=
  match r.Form with
  | some _ => r
  | none => { r with Form := some r.formData }

/-- The expression `r.Form[key]`: indexing a nil map gives the nil slice. -/
def Request.FormIndex (r : Request) (key : String) : List String :=
  match r.Form with
  | some m => m.index key
  | none => []

/-- State of an `http.ResponseWriter`: the header map, the status code once
the header has been written (`none` before), and the bytes written so far.
`traceparent` is set while the writer is wrapped by an `otelhttp` handler: the
value of the span context that the wrapper injects into the header map at the
moment the header is written; `none` on a writer that is not wrapped. -/
structure ResponseWriter where
  header : Values
  status : Option Nat
  body : String
  traceparent : Option String := none
  deriving DecidableEq, Repr

/-- The writer a handler receives for a new request. -/
def ResponseWriter.fresh : ResponseWriter :=
  { header := [], status := none, body := "" }

/-- The call `w.Header().Set(key, value)`. -/
def ResponseWriter.HeaderSet (w : ResponseWriter) (key value : String) : ResponseWriter :=
  { w with header := w.header.Set key value }

/-- The call `w.WriteHeader(code)`: the first call fixes the status, later
calls are ignored.  On a writer wrapped by `otelhttp` the first call also
injects the span context as the header `Traceparent`, before the status line
goes out. -/
def ResponseWriter.WriteHeader (w : ResponseWriter) (code : Nat) : ResponseWriter :=
  match w.status with
  | some _ => w
  | none =>
    match w.traceparent with
    | none => { w with status := some code }
    | some v => { w with header := w.header.Set "Traceparent" v, status := some code }

def StatusOK : Nat := 200
def StatusMovedPermanently : Nat := 301
def StatusBadRequest : Nat := 400
def StatusNotFound : Nat := 404

/-- The call `w.Write(p)`: writes the header with status 200 if it has not
been written yet, then appends the bytes. -/
def ResponseWriter.Write (w : ResponseWriter) (p : String) : ResponseWriter :=
  let w1 := w.WriteHeader StatusOK
  { w1 with body := w1.body ++ p }

/-! ## fmt -/

/-- Operands the program hands to `fmt`: a `string` or a `[]string`. -/
inductive Arg where
  | string (s : String)
  | strings (xs : List String)
  deriving DecidableEq, Repr

/-- Loop of `printValue` over the elements of a slice: a space before every
element but the first (index `i` is the position of the head). -/
def printElems : Nat → List String → String
  | _, [] => ""
  | i, x :: xs => (if i > 0 then " " else "") ++ x ++ printElems (i + 1) xs

/-- Go `printArg` for the verbs `%s` and `%v` without flags: a string is
written as it is, a slice of strings as `[`, its elements, `]`. -/
def printArg : Arg → String
  | .string s => s
  | .strings xs => "[" ++ printElems 0 xs ++ "]"

/-- Go `reflect.TypeOf(arg).String()` for the two operand types. -/
def Arg.typeString : Arg → String
  | .string _ => "string"
  | .strings _ => "[]string"

/-- Tail of `doPrintf`: operands left over are reported as `%!(EXTRA ...)`. -/
def extraArgs : Nat → List Arg → String
  | _, [] => ""
  | i, a :: rest =>
    (if i > 0 then ", " else "") ++ a.typeString ++ "=" ++ printArg a ++ extraArgs (i + 1) rest

/-- Go `doPrintf` on the characters of the format.  Modelled fragment: plain
text, `%%`, and the verbs `%s` and `%v` without flags, width, precision or
argument index, on the operand types of `Arg`; a missing operand, a lone
trailing `%` and surplus operands are reported the way Go reports them.  Any
other directive is outside the fragment and gives `none`. -/
def doPrintf : List Char → List Arg → Option String
  | [], [] => some ""
  | [], a :: rest => some ("%!(EXTRA " ++ extraArgs 0 (a :: rest) ++ ")")
  | ['%'], _ => some "%!(NOVERB)"
  | '%' :: v :: cs, args =>
    if v = '%' then (doPrintf cs args).map (fun t => "%" ++ t)
    else if v = 's' ∨ v = 'v' then
      match args with
      | [] => (doPrintf cs []).map (fun t => "%!" ++ String.singleton v ++ "(MISSING)" ++ t)
      | a :: rest => (doPrintf cs rest).map (fun t => printArg a ++ t)
    else none
  | c :: cs, args => (doPrintf cs args).map (fun t => String.singleton c ++ t)

/-- Go `fmt.Sprintf`, on the fragment of `doPrintf`. -/
def Sprintf (format : String) (a : List Arg) : Option String :=
  doPrintf format.data a

/-- Go `fmt.Fprintf(w, format, a...)`. -/
def Fprintf (w : ResponseWriter) (format : String) (a : List Arg) : Option ResponseWriter :=
  (Sprintf format a).map w.Write

/-- Go `fmt.Fprint(w, s)` with one string operand: the string as it is. -/
def Fprint (w : ResponseWriter) (s : String) : ResponseWriter :=
  w.Write s

/-- Go `fmt.Fprintln(w, s)` with one string operand: the string and a newline. -/
def Fprintln (w : ResponseWriter) (s : String) : ResponseWriter :=
  w.Write (s ++ "\n")

/-- Go `http.Error`: sets the two headers, writes the status line, then prints
the message with `Fprintln`. -/
def http.Error (w : ResponseWriter) (error : String) (code : Nat) : ResponseWriter :=
  let w1 := w.HeaderSet "Content-Type" "text/plain; charset=utf-8"
  let w2 := w1.HeaderSet "X-Content-Type-Options" "nosniff"
  let w3 := w2.WriteHeader code
  Fprintln w3 error

/-! ## main.go: templates and handlers -/

/-- Raw string `indexHtml` of main.go, byte for byte. -/
def indexHtml : String :=
  "\n<!DOCTYPE html>\n<html>\n<head>\n  <meta charset=\"UTF-8\" />\n</head>\n<body>\n<div>\n  <form method=\"POST\" action=\"/create\">     \n      <label>Domain Name</label><input name=\"domain\" type=\"text\" value=\"\" />\n      <input type=\"submit\" value=\"Request Certificate\" />\n  </form>\n</div>\n</body>\n</html>\n"

/-- Raw string `indexResponse` of main.go, byte for byte. -/
def indexResponse : String :=
  "\n<!DOCTYPE html>\n<html>\n<head>\n  <meta charset=\"UTF-8\" />\n</head>\n<body>\n\t<div>\n\t\t<h1>Request for domain %s generated successfully<h1>\n\t</div>\n</body>\n</html>\n"

/-- Go `http.HandlerFunc`: from the writer's state before the call to its
state after it; `none` only when a format leaves the fragment of `doPrintf`. -/
abbrev HandlerFunc := ResponseWriter → Request → Option ResponseWriter

/-- Handler of `/create` (main.go): echoes the `domain` values into `indexResponse`. -/
def issueCertificate : HandlerFunc := fun w r =>
  if r.Method != "POST" then
    some (http.Error w "Method is not supported." StatusNotFound)
  else
    let w1 := w.HeaderSet "Content-Type" "text/html; charset=utf-8"
    let r1 := r.ParseForm
    Fprintf w1 indexResponse [Arg.strings (r1.FormIndex "domain")]

/-- Handler of `/` (main.go): the static form page. -/
def handlerHomePage : HandlerFunc := fun w r =>
  if r.Method != "GET" then
    some (http.Error w "Method is not supported." StatusNotFound)
  else
    let w1 := w.HeaderSet "Content-Type" "text/html; charset=utf-8"
    some (Fprint w1 indexHtml)

/-- Handler of `/health` (main.go): the JSON status. -/
def healthHandler : HandlerFunc := fun w r =>
  if r.Method != "GET" then
    some (http.Error w "Method is not supported." StatusNotFound)
  else
    let w1 := w.HeaderSet "Content-Type" "application/json; charset=utf-8"
    some (Fprint w1 "\x7b\"status\": \"UP\"\x7d")

/-- A request with the given method, path and form fields, nothing else set. -/
def mkRequest (method path : String) (fields : Values) : Request :=
  { Method := method, URL := { Host := "", Path := path, RawQuery := "" }, Host := "",
    RequestURI := path,
    ProtoMajor := 1, ProtoMinor := 1, Header := [], Body := "", formData := fields, Form := none }

/-! ## strconv.Atoi -/

/-- The two error kinds of `strconv`. -/
inductive NumErr where
  | ErrSyntax
  | ErrRange
  deriving DecidableEq, Repr

/-- Go `strconv.NumError`: the failing function, the input, the kind. -/
structure NumError where
  Func : String
  Num : String
  Err : NumErr
  deriving DecidableEq, Repr

/-- Loop of the fast path of `Atoi`: every byte must be a decimal digit. -/
def atoiFast : List Char → Nat → Option Nat
  | [], n => some n
  | ch :: cs, n =>
    if '0' ≤ ch ∧ ch ≤ '9' then atoiFast cs (n * 10 + (ch.toNat - '0'.toNat)) else none

/-- Largest `uint64`. -/
def maxUint64 : Nat := 2 ^ 64 - 1

/-- Loop of `ParseUint` for base 10 and bit size 64: a byte that is not a
decimal digit is a syntax error, an overflow of `uint64` a range error. -/
def parseUintLoop : List Char → Nat → Except NumErr Nat
  | [], n => .ok n
  | c :: cs, n =>
    if '0' ≤ c ∧ c ≤ '9' then
      if n ≥ maxUint64 / 10 + 1 then .error .ErrRange
      else
        let n1 := n * 10 + (c.toNat - '0'.toNat)
        if n1 > maxUint64 then .error .ErrRange else parseUintLoop cs n1
    else .error .ErrSyntax

/-- Go `strconv.ParseUint(s, 10, 64)` on the characters of `s`. -/
def ParseUint (s : List Char) : Except NumErr Nat :=
  match s with
  | [] => .error .ErrSyntax
  | _ => parseUintLoop s 0

/-- Go `strconv.ParseInt(s, 10, 0)` on a 64-bit platform, on the characters of `s`. -/
def ParseInt (s : List Char) : Except NumErr Int :=
  match s with
  | [] => .error .ErrSyntax
  | c :: rest =>
    let neg := c = '-'
    let digits := if c = '+' ∨ c = '-' then rest else s
    match ParseUint digits with
    | .error e => .error e
    | .ok un =>
      let cutoff : Nat := 2 ^ 63
      if ¬ neg ∧ un ≥ cutoff then .error .ErrRange
      else if neg ∧ un > cutoff then .error .ErrRange
      else .ok (if neg then - (un : Int) else (un : Int))

/-- Go `strconv.Atoi` on a 64-bit platform.  `len(s)` is the length in bytes;
a string shorter than 19 bytes takes the fast path, the rest goes through
`ParseInt`. -/
def Atoi (s : String) : Except NumError Int :=
  let sLen := s.utf8ByteSize
  if 0 < sLen ∧ sLen < 19 then
    match s.data with
    | [] => .error ⟨"Atoi", s, .ErrSyntax⟩
    | c :: rest =>
      let digits := if c = '-' ∨ c = '+' then rest else s.data
      if (c = '-' ∨ c = '+') ∧ rest.length < 1 then .error ⟨"Atoi", s, .ErrSyntax⟩
      else
        match atoiFast digits 0 with
        | none => .error ⟨"Atoi", s, .ErrSyntax⟩
        | some n => .ok (if c = '-' then - (n : Int) else (n : Int))
  else
    match ParseInt s.data with
    | .error e => .error ⟨"Atoi", s, e⟩
    | .ok i => .ok i

/-! ## Processes: effects, exits and panics -/

/-- An error value handed to the logger. -/
inductive GoError where
  | num (e : NumError)
  | external (msg : String)
  deriving DecidableEq, Repr

/-- A zap log field. -/
inductive Field where
  | String (key val : String)
  | Int (key : String) (val : Int)
  | Error (err : GoError)
  deriving DecidableEq, Repr

/-- Go `syscall.Signal`: the signal number. -/
abbrev Signal := Nat

def SIGHUP : Signal := 1
def SIGINT : Signal := 2
def SIGQUIT : Signal := 3
def SIGABRT : Signal := 6
def SIGTERM : Signal := 15

/-- Signal names of `syscall` on linux, indexed by signal number (index 0 unused). -/
def signals : List String :=
  ["", "hangup", "interrupt", "quit", "illegal instruction", "trace/breakpoint trap",
   "aborted", "bus error", "floating point exception", "killed", "user defined signal 1",
   "segmentation fault", "user defined signal 2", "broken pipe", "alarm clock", "terminated",
   "stack fault", "child exited", "continued", "stopped (signal)", "stopped",
   "stopped (tty input)", "stopped (tty output)", "urgent I/O condition",
   "CPU time limit exceeded", "file size limit exceeded", "virtual timer expired",
   "profiling timer expired", "window changed", "I/O possible", "power failure",
   "bad system call"]

/-- Go `syscall.Signal.String`. -/
def Signal.String (s : Signal) : String :=
  let str := signals.getD s ""
  if str != "" then str else "signal " ++ toString s

/-! ## path.Clean and net/http ServeMux -/

/-- Go `strings.HasPrefix`. -/
def strings.HasPrefix (s pre : String) : Bool :=
  pre.data.isPrefixOf s.data

/-- Backtracking loop of `path.Clean` for a `..` element, entered after the
first `out.w--`: the write index moves down while it is above `dotdot` and
the byte at it is not a slash. -/
def cleanBacktrack (buf : List Char) (dotdot : Nat) : Nat → Nat
  | 0 => 0
  | w + 1 =>
    if w + 1 > dotdot ∧ buf.getD (w + 1) '/' ≠ '/' then cleanBacktrack buf dotdot w else w + 1

/-- Main loop of `path.Clean`.  `rest` is the unread part of the path
(`path[r:]`), `out` the bytes written so far (`out.w` is its length),
`dotdot` the index where `..` must stop.  Every iteration reads at least one
byte, so a fuel of the path length suffices. -/
def cleanLoop (rooted : Bool) : Nat → List Char → List Char → Nat → List Char
  | 0, _, out, _ => out
  | _ + 1, [], out, _ => out
  | fuel + 1, c :: rest, out, dotdot =>
    if c = '/' then
      cleanLoop rooted fuel rest out dotdot
    else if c = '.' ∧ (rest = [] ∨ rest.head? = some '/') then
      cleanLoop rooted fuel rest out dotdot
    else if c = '.' ∧ rest.head? = some '.' ∧
        (rest.tail = [] ∨ rest.tail.head? = some '/') then
      if out.length > dotdot then
        let w := cleanBacktrack out dotdot (out.length - 1)
        cleanLoop rooted fuel rest.tail (out.take w) dotdot
      else if ¬ rooted then
        let out1 := (if out.length > 0 then out ++ ['/'] else out) ++ ['.', '.']
        cleanLoop rooted fuel rest.tail out1 out1.length
      else
        cleanLoop rooted fuel rest.tail out dotdot
    else
      let out1 :=
        if (rooted ∧ out.length ≠ 1) ∨ (¬ rooted ∧ out.length ≠ 0) then out ++ ['/'] else out
      let elem := (c :: rest).takeWhile (fun x => x != '/')
      cleanLoop rooted fuel ((c :: rest).dropWhile (fun x => x != '/')) (out1 ++ elem) dotdot

/-- Go `path.Clean`. -/
def path.Clean (p : String) : String :=
  match p.data with
  | [] => "."
  | c :: rest =>
    let rooted : Bool := c = '/'
    let out :=
      if rooted then cleanLoop true (rest.length + 1) rest ['/'] 1
      else cleanLoop false (rest.length + 2) (c :: rest) [] 0
    if out.length = 0 then "." else String.mk out

/-- Go `cleanPath` of net/http: the canonical path for `p`, without `.` and
`..` elements and with the trailing slash kept. -/
def cleanPath (p : String) : String :=
  if p = "" then "/"
  else
    let p1 := if p.data.head? ≠ some '/' then "/" ++ p else p
    let np := path.Clean p1
    if p1.data.getLast? = some '/' ∧ np ≠ "/" then
      if p1.utf8ByteSize = np.utf8ByteSize + 1 ∧ strings.HasPrefix p1 np then p1
      else np ++ "/"
    else np

/-- Go `http.Handler` values the program can meet: a handler function, a
handler wrapped by `otelhttp.NewHandler` under an operation name, and the two
handlers `ServeMux` makes itself. -/
inductive http.Handler where
  | func (f : HandlerFunc)
  | otelhttp (h : http.Handler) (operation : String)
  | RedirectHandler (url : URL) (code : Nat)
  | NotFoundHandler

/-- Go `muxEntry`. -/
structure muxEntry where
  h : http.Handler
  pattern : String

/-- Go `http.ServeMux`: the pattern map `m`, the entries whose pattern ends
in a slash sorted from longest to shortest `es`, and whether some pattern
names a host. -/
structure ServeMux where
  m : List (String × muxEntry)
  es : List muxEntry
  hosts : Bool

/-- Go `http.NewServeMux`. -/
def http.NewServeMux : ServeMux :=
  { m := [], es := [], hosts := false }

/-- Why a process stopped: `os.Exit` with a status, or an unrecovered panic. -/
inductive Stop where
  | exit (code : Nat)
  | panic (msg : String)
  deriving DecidableEq, Repr

/-- Go `appendSorted`: the entry goes before the first entry with a shorter
pattern (the index `sort.Search` finds in a slice sorted by falling length). -/
def appendSorted : List muxEntry → muxEntry → List muxEntry
  | [], e => [e]
  | x :: es, e =>
    if x.pattern.utf8ByteSize < e.pattern.utf8ByteSize then e :: x :: es
    else x :: appendSorted es e

/-- Go `(*ServeMux).Handle`; the handler values of the model are never nil.
A panic leaves the mux as it was. -/
def ServeMux.Handle (mux : ServeMux) (pattern : String) (handler : http.Handler) :
    Except Stop ServeMux :=
  if pattern = "" then .error (.panic "http: invalid pattern")
  else if (mux.m.lookup pattern).isSome then
    .error (.panic ("http: multiple registrations for " ++ pattern))
  else
    let e : muxEntry := { h := handler, pattern := pattern }
    let m1 := (pattern, e) :: mux.m
    let es1 := if pattern.data.getLast? = some '/' then appendSorted mux.es e else mux.es
    let hosts1 := if pattern.data.head? ≠ some '/' then true else mux.hosts
    .ok { m := m1, es := es1, hosts := hosts1 }

/-- Go `(*ServeMux).HandleFunc`. -/
def ServeMux.HandleFunc (mux : ServeMux) (pattern : String) (handler : HandlerFunc) :
    Except Stop ServeMux :=
  mux.Handle pattern (.func handler)

/-- Loop of `(*ServeMux).match` over `es`: first entry whose pattern is a
prefix of the path. -/
def matchPrefix (path : String) : List muxEntry → Option muxEntry
  | [] => none
  | e :: es => if strings.HasPrefix path e.pattern then some e else matchPrefix path es

/-- Go `(*ServeMux).match`: exact match first, then the longest pattern
ending in a slash that is a prefix of the path; `none` is the nil handler. -/
def ServeMux.match (mux : ServeMux) (path : String) : Option muxEntry :=
  match mux.m.lookup path with
  | some v => some v
  | none => matchPrefix path mux.es

/-- Go `(*ServeMux).handler`. -/
def ServeMux.handler (mux : ServeMux) (host path : String) : http.Handler × String :=
  let r1 := if mux.hosts then mux.match (host ++ path) else none
  let r2 := match r1 with
    | some e => some e
    | none => mux.match path
  match r2 with
  | some e => (e.h, e.pattern)
  | none => (.NotFoundHandler, "")

/-- Go `(*ServeMux).shouldRedirectRLocked`. -/
def ServeMux.shouldRedirectRLocked (mux : ServeMux) (host path : String) : Bool :=
  if (mux.m.lookup path).isSome ∨ (mux.m.lookup (host ++ path)).isSome then false
  else if path.utf8ByteSize = 0 then false
  else if (mux.m.lookup (path ++ "/")).isSome then path.data.getLast? ≠ some '/'
  else if (mux.m.lookup (host ++ path ++ "/")).isSome then path.data.getLast? ≠ some '/'
  else false

/-- Go `(*ServeMux).redirectToPathSlash`. -/
def ServeMux.redirectToPathSlash (mux : ServeMux) (host path : String) (u : URL) : URL × Bool :=
  if ¬ mux.shouldRedirectRLocked host path then (u, false)
  else ({ Host := "", Path := path ++ "/", RawQuery := u.RawQuery }, true)

/-- Go `(*ServeMux).Handler`: the handler and the pattern chosen for a
request.  `stripHostPort` is the library function that drops the port from
`r.Host`. -/
def ServeMux.Handler (stripHostPort : String → String) (mux : ServeMux) (r : Request) :
    http.Handler × String :=
  if r.Method = "CONNECT" then
    let (u, ok) := mux.redirectToPathSlash r.URL.Host r.URL.Path r.URL
    if ok then (.RedirectHandler u StatusMovedPermanently, u.Path)
    else mux.handler r.Host r.URL.Path
  else
    let host := stripHostPort r.Host
    let path := cleanPath r.URL.Path
    let (u, ok) := mux.redirectToPathSlash host path r.URL
    if ok then (.RedirectHandler u StatusMovedPermanently, u.Path)
    else if path ≠ r.URL.Path then
      let (_, pattern) := mux.handler host path
      (.RedirectHandler { r.URL with Path := path } StatusMovedPermanently, pattern)
    else mux.handler host r.URL.Path

/-- Go `(*Request).ProtoAtLeast`. -/
def Request.ProtoAtLeast (r : Request) (major minor : Nat) : Bool :=
  r.ProtoMajor > major ∨ (r.ProtoMajor = major ∧ r.ProtoMinor ≥ minor)

/-- The method `ServeHTTP` of a handler value.  The `otelhttp` wrapper starts
a span named after its operation and hands the request to the wrapped handler
with a wrapped writer: that writer injects the span context into the response
headers when the header is written (see `ResponseWriter.WriteHeader`) and
leaves status and body as the handler writes them.  `traceparent` gives the
header value of the span started for an operation and a request; `Redirect`
is the library function `http.Redirect`. -/
def http.Handler.ServeHTTP (traceparent : String → Request → String)
    (Redirect : ResponseWriter → Request → URL → Nat → ResponseWriter) :
    http.Handler → HandlerFunc
  | .func f, w, r => f w r
  | .otelhttp h operation, w, r =>
    (h.ServeHTTP traceparent Redirect
        { w with traceparent := some (traceparent operation r) } r).map
      (fun w2 => { w2 with traceparent := w.traceparent })
  | .RedirectHandler url code, w, r => some (Redirect w r url code)
  | .NotFoundHandler, w, _ => some (http.Error w "404 page not found" StatusNotFound)

/-- Go `(*ServeMux).ServeHTTP`: the request goes to the handler `Handler`
chooses. -/
def ServeMux.ServeHTTP (stripHostPort : String → String)
    (traceparent : String → Request → String)
    (Redirect : ResponseWriter → Request → URL → Nat → ResponseWriter)
    (mux : ServeMux) : HandlerFunc := fun w r =>
  if r.RequestURI = "*" then
    let w1 := if r.ProtoAtLeast 1 1 then w.HeaderSet "Connection" "close" else w
    some (w1.WriteHeader StatusBadRequest)
  else
    (mux.Handler stripHostPort r).1.ServeHTTP traceparent Redirect w r

/-! ## Effects of the process -/

/-- Log levels of zap the program uses. -/
inductive Level where
  | info
  | fatal
  deriving DecidableEq, Repr

/-- What the process does to the outside world, one entry per call. -/
inductive Effect where
  | Println (s : String)
  | log (level : Level) (msg : String) (fields : List Field)
  | loggerSync
  | jaegerInstallNewPipeline (serviceName : String)
  | prometheusInstallNewPipeline
  | SetMeterProvider
  | goInitSignals
  | signalNotify (sigs : List Signal)
  | Sleep (nanoseconds : Nat)
  | flushTraceCB
  | ListenAndServe (addr : String) (handler : ServeMux)

/-- A run of a piece of the program: the effects performed, in order, and
either the value returned or the reason the process stopped. -/
structure Run (α : Type) where
  trace : List Effect
  result : Except Stop α

/-- Returning a value without any effect. -/
def Run.pure {α : Type} (a : α) : Run α :=
  { trace := [], result := .ok a }

/-- Sequencing: the second part runs only if the first returned. -/
def Run.bind {α β : Type} (x : Run α) (f : α → Run β) : Run β :=
  match x.result with
  | .error s => { trace := x.trace, result := .error s }
  | .ok a => { trace := x.trace ++ (f a).trace, result := (f a).result }

instance : Monad Run where
  pure := Run.pure
  bind := Run.bind

/-- One effect. -/
def emit (e : Effect) : Run Unit :=
  { trace := [e], result := .ok () }

/-- Go `os.Exit`: the process stops, nothing after it runs. -/
def os.Exit {α : Type} (code : Nat) : Run α :=
  { trace := [], result := .error (.exit code) }

/-- A panic nobody recovers. -/
def panic {α : Type} (msg : String) : Run α :=
  { trace := [], result := .error (.panic msg) }

/-- Lifting of a step that either panics or returns. -/
def liftExcept {α : Type} (x : Except Stop α) : Run α :=
  { trace := [], result := x }

/-- The call `logger.Info(msg, fields...)`. -/
def logger.Info (msg : String) (fields : List Field) : Run Unit :=
  emit (.log .info msg fields)

/-- The call `logger.Fatal(msg, fields...)` of zap: writes the entry, then
calls `os.Exit(1)`. -/
def logger.Fatal {α : Type} (msg : String) (fields : List Field) : Run α := do
  emit (.log .fatal msg fields)
  os.Exit 1

/-- What the outside world answers to the process: the error of
`zap.NewProduction` (if any), the value of the environment variable
`HOST_PORT` (empty when unset), the errors of the jaeger and prometheus
pipeline installers (if any), the prometheus exporter's handler, and the error
`ListenAndServe` returns when it stops serving. -/
structure World where
  zapErr : Option String
  HOST_PORT : String
  jaegerErr : Option String
  prometheusErr : Option String
  exporterServeHTTP : HandlerFunc
  listenErr : String

/-! ## server.go -/

/-- The `server` struct: the fields that hold data.  The logger, the tracer
and the flush callback are handles on external services; their calls appear
as effects. -/
structure server where
  router : ServeMux
  appPort : Int
  serverShutdownTimeout : Nat
  serviceName : String

/-- One second in nanoseconds, Go `time.Second`. -/
def Second : Nat := 1000000000

/-- The method `initTracingProvider`: installs the jaeger pipeline, fatal on error. -/
def server.initTracingProvider (s : server) (world : World) : Run Unit := do
  emit (.jaegerInstallNewPipeline s.serviceName)
  match world.jaegerErr with
  | some err => logger.Fatal "could not initialize jaeger" [.Error (.external err)]
  | none => pure ()

/-- The method `initMeter`: installs the prometheus exporter and registers it
at `/metrics`. -/
def server.initMeter (s : server) (world : World) : Run server := do
  logger.Info "initializing prometheus in route /metrics" []
  emit .prometheusInstallNewPipeline
  match world.prometheusErr with
  | some err =>
    logger.Fatal "failed to initialize prometheus exporter %v" [.Error (.external err)]
  | none =>
    let router ← liftExcept (s.router.HandleFunc "/metrics" world.exporterServeHTTP)
    emit .SetMeterProvider
    pure { s with router := router }

/-- The function `NewServer`: builds the struct, then the two initialisers. -/
def NewServer (world : World) (serviceName : String) (port : Int) : Run server := do
  let sv : server :=
    { serviceName := serviceName, router := http.NewServeMux, appPort := port,
      serverShutdownTimeout := Second * 30 }
  sv.initTracingProvider world
  let sv ← sv.initMeter world
  pure sv

/-- The method `AddHandlerFunc`: registers the handler, wrapped by otelhttp
under the route as operation name, on the router. -/
def server.AddHandlerFunc (s : server) (route : String) (handleFunc : HandlerFunc) :
    Run server := do
  let router ← liftExcept (s.router.Handle route (.otelhttp (.func handleFunc) route))
  pure { s with router := router }

/-- The method `signalHandler`; it never returns. -/
def server.signalHandler (_s : server) (signal : Signal) : Run Unit := do
  logger.Info "caught signal" [.String "signal" (Signal.String signal)]
  logger.Info "wait for 1 second to finish processing" []
  emit (.Sleep (1 * Second))
  if signal = SIGHUP then pure ()
  else if signal = SIGINT then pure ()
  else if signal = SIGTERM then pure ()
  else if signal = SIGQUIT then pure ()
  else logger.Info "os term signal captured shutting down http server..." []
  emit .flushTraceCB
  logger.Info "finished server cleanup" []
  os.Exit 0

/-- The goroutine `initSignals`, once the signal `sig` has arrived on the
channel. -/
def server.initSignals (s : server) (sig : Signal) : Run Unit := do
  emit (.signalNotify [SIGINT, SIGTERM, SIGABRT])
  s.signalHandler sig

/-- The method `Start`: starts the signal goroutine, logs, and serves; the
value returned is the error of `ListenAndServe`. -/
def server.Start (s : server) (world : World) : Run String := do
  emit .goInitSignals
  logger.Info "Initializing http server" [.Int "http.port" s.appPort]
  emit (.ListenAndServe ("0.0.0.0:" ++ toString s.appPort) s.router)
  pure world.listenErr

/-- The function `HandleError` with the error as an optional message. -/
def HandleError (w : ResponseWriter) (err : Option String) (statusCode : Nat) :
    ResponseWriter × Bool :=
  match err with
  | none => (w, false)
  | some msg => (http.Error w msg statusCode, true)

/-! ## main.go: main -/

/-- The function `main`; the deferred `logger.Sync` runs only on a normal return. -/
def main (world : World) : Run Unit := do
  match world.zapErr with
  | some _ =>
    emit (.Println "could not create zap logger")
    os.Exit 1
  | none =>
    let hostPortRaw := world.HOST_PORT
    match Atoi hostPortRaw with
    | .error err => logger.Fatal "is not a valid port" [.Error (.num err)]
    | .ok hostPort =>
      let svr ← NewServer world "certinator" hostPort
      let svr ← svr.AddHandlerFunc "/create" issueCertificate
      let svr ← svr.AddHandlerFunc "/health" healthHandler
      let svr ← svr.AddHandlerFunc "/" handlerHomePage
      let _ ← svr.Start world
      emit .loggerSync

/-! ## Definitions used to state the properties -/

/-- Text of `indexResponse` before its `%s` directive. -/
def tplHead : String :=
  "\n<!DOCTYPE html>\n<html>\n<head>\n  <meta charset=\"UTF-8\" />\n</head>\n<body>\n\t<div>\n\t\t<h1>Request for domain "

/-- Text of `indexResponse` after its `%s` directive. -/
def tplTail : String :=
  " generated successfully<h1>\n\t</div>\n</body>\n</html>\n"

/-- Specification side: the values of a list joined with single spaces. -/
def joinWithSpaces (vs : List String) : String :=
  " ".intercalate vs

/-- Specification side: a template with its first `%s` placeholder replaced
by the given text (characters of the template, replacement). -/
def replacePlaceholderChars : List Char → List Char → List Char
  | [], _ => []
  | [c], _ => [c]
  | c :: d :: cs, x =>
    if c = '%' ∧ d = 's' then x ++ cs else c :: replacePlaceholderChars (d :: cs) x

/-- Specification side: `replacePlaceholderChars` on strings. -/
def replacePlaceholder (template x : String) : String :=
  String.mk (replacePlaceholderChars template.data x.data)

/-- Specification side: a decimal integer is an optional sign followed by one
or more decimal digits. -/
def isDecimalInteger (s : String) : Bool :=
  match s.data with
  | [] => false
  | c :: rest =>
    let digits := if c = '+' ∨ c = '-' then rest else c :: rest
    !digits.isEmpty && digits.all (fun d => decide ('0' ≤ d ∧ d ≤ '9'))

/-- Effects that belong to the construction and start of the server: the
first thing `NewServer` does is to install the jaeger pipeline, and `Start`
ends in `ListenAndServe`. -/
def Effect.startsServer : Effect → Bool
  | .jaegerInstallNewPipeline _ => true
  | .prometheusInstallNewPipeline => true
  | .SetMeterProvider => true
  | .goInitSignals => true
  | .ListenAndServe _ _ => true
  | _ => false

/-- The effect is a call of the flush callback. -/
def Effect.isFlush : Effect → Bool
  | .flushTraceCB => true
  | _ => false

/-- The handler of the first `ListenAndServe` of a trace, if there is one. -/
def listening : List Effect → Option ServeMux
  | [] => none
  | .ListenAndServe _ handler :: _ => some handler
  | _ :: es => listening es

/-- The router `main` serves: the handler it passes to `ListenAndServe`. -/
def mainRouter (world : World) : Option ServeMux :=
  listening (main world).trace

/-- The response of the server `main` starts to a request, on a fresh writer. -/
def mainServe (world : World) (stripHostPort : String → String)
    (traceparent : String → Request → String)
    (Redirect : ResponseWriter → Request → URL → Nat → ResponseWriter) (r : Request) :
    Option ResponseWriter :=
  match mainRouter world with
  | none => none
  | some mux => mux.ServeHTTP stripHostPort traceparent Redirect ResponseWriter.fresh r

/-- A tracer that gives every span the same context: stands in for the span
contexts of the tracer where a concrete function is needed. -/
def fixedTraceparent : String → Request → String :=
  fun _ _ => "00-0af7651916cd43dd8448eb211c80319c-b7ad6b7169203331-01"

/-- A world in which every collaborator answers without error, the port is
`port`, and the metrics exporter writes nothing. -/
def quietWorld (port : String) : World :=
  { zapErr := none, HOST_PORT := port, jaegerErr := none, prometheusErr := none,
    exporterServeHTTP := fun w _ => some w, listenErr := "" }

/-- A redirect that only sets the status: stands in for `http.Redirect` where
a concrete function is needed. -/
def bareRedirect : ResponseWriter → Request → URL → Nat → ResponseWriter :=
  fun w _ _ code => w.WriteHeader code

/-- The two calls `AddHandlerFunc(p, A)` and then `AddHandlerFunc(p, B)` on
the same server. -/
def registerTwice (s : server) (p : String) (A B : HandlerFunc) : Run server := do
  let s1 ← s.AddHandlerFunc p A
  s1.AddHandlerFunc p B

/-- A server with an empty route table. -/
def bareServer : server :=
  { router := http.NewServeMux, appPort := 8080, serverShutdownTimeout := Second * 30,
    serviceName := "certinator" }

/-- The route table `main` has built when it calls `Start`: `/metrics` from
`initMeter`, then `/create`, `/health` and `/` from `AddHandlerFunc`. -/
def mainMux (exporterServeHTTP : HandlerFunc) : ServeMux :=
  { m := [("/", { h := .otelhttp (.func handlerHomePage) "/", pattern := "/" }),
          ("/health", { h := .otelhttp (.func healthHandler) "/health", pattern := "/health" }),
          ("/create", { h := .otelhttp (.func issueCertificate) "/create", pattern := "/create" }),
          ("/metrics", { h := .func exporterServeHTTP, pattern := "/metrics" })],
    es := [{ h := .otelhttp (.func handlerHomePage) "/", pattern := "/" }],
    hosts := false }

/-- The form element the home page must carry. -/
def formTag : String := "<form method=\"POST\" action=\"/create\">"

/-- The handler and pattern the router of `main` chooses for a request. -/
def mainHandler (world : World) (stripHostPort : String → String) (r : Request) :
    Option (http.Handler × String) :=
  match mainRouter world with
  | none => none
  | some mux => some (mux.Handler stripHostPort r)

/-! ## fmt on the response template -/

set_option maxRecDepth 100000 in
/-- The template is its head, the directive `%s`, its tail. -/
theorem indexResponse_split : indexResponse.data = tplHead.data ++ '%' :: 's' :: tplTail.data := by
  decide

set_option maxRecDepth 100000 in
theorem tplHead_no_percent : '%' ∉ tplHead.data := by decide

set_option maxRecDepth 100000 in
theorem tplTail_no_percent : '%' ∉ tplTail.data := by decide

/-- Text without a percent sign is copied to the output. -/
theorem doPrintf_text (lit : List Char) (h : '%' ∉ lit) (cs : List Char) (args : List Arg) :
    doPrintf (lit ++ cs) args = (doPrintf cs args).map (fun t => String.mk lit ++ t) := by
  induction lit with
  | nil =>
    have : (fun t : String => String.mk [] ++ t) = id := by
      funext t; apply String.ext; simp
    simp [this]
  | cons c lit ih =>
    have hc : c ≠ '%' := fun e => h (by simp [e])
    have hl : '%' ∉ lit := fun e => h (by simp [e])
    rw [List.cons_append, doPrintf]
    · rw [ih hl, Option.map_map]
      congr 1
    · intro e; exact absurd e hc
    · intro v cs2 e; exact absurd e hc

/-- The element loop of `printValue` and the joining loop of the library agree. -/
theorem intercalate_go_printElems (i : Nat) (acc : String) (xs : List String) :
    String.intercalate.go acc " " xs = acc ++ printElems (i + 1) xs := by
  induction xs generalizing i acc with
  | nil => apply String.ext; simp [String.intercalate.go, printElems]
  | cons x xs ih =>
    rw [String.intercalate.go, ih (i + 1), printElems]
    simp [String.append_assoc]

/-- From index 0 the element loop joins the values with single spaces. -/
theorem printElems_zero (xs : List String) : printElems 0 xs = joinWithSpaces xs := by
  cases xs with
  | nil => rfl
  | cons x xs =>
    rw [joinWithSpaces, String.intercalate, intercalate_go_printElems 0, printElems]
    apply String.ext; simp

/-- Replacing the placeholder of a text whose head has no percent sign. -/
theorem replacePlaceholderChars_split (pre : List Char) (h : '%' ∉ pre) (post x : List Char) :
    replacePlaceholderChars (pre ++ '%' :: 's' :: post) x = pre ++ x ++ post := by
  induction pre with
  | nil => simp [replacePlaceholderChars]
  | cons c pre ih =>
    have hc : c ≠ '%' := fun e => h (by simp [e])
    have hl : '%' ∉ pre := fun e => h (by simp [e])
    cases pre with
    | nil => simp [replacePlaceholderChars, hc]
    | cons d pre =>
      have := ih hl
      simp only [List.cons_append] at this ⊢
      simp [replacePlaceholderChars, hc, this]

/-- A format without a percent sign and without operands is printed as it is. -/
theorem doPrintf_text_only (lit : List Char) (h : '%' ∉ lit) :
    doPrintf lit [] = some (String.mk lit) := by
  have h1 := doPrintf_text lit h [] []
  rw [List.append_nil] at h1
  rw [h1]
  simp only [doPrintf, Option.map_some']
  congr 1
  apply String.ext; simp

/-- A format with the single directive `%s` and one operand. -/
theorem doPrintf_one_verb (pre post : List Char) (hpre : '%' ∉ pre) (hpost : '%' ∉ post)
    (a : Arg) :
    doPrintf (pre ++ '%' :: 's' :: post) [a]
      = some (String.mk pre ++ printArg a ++ String.mk post) := by
  rw [doPrintf_text pre hpre]
  simp [doPrintf, doPrintf_text_only post hpost, String.append_assoc]

/-- `Sprintf` on the response template puts the operand between head and tail. -/
theorem Sprintf_indexResponse (a : Arg) :
    Sprintf indexResponse [a] = some (tplHead ++ printArg a ++ tplTail) := by
  unfold Sprintf
  rw [indexResponse_split]
  exact doPrintf_one_verb _ _ tplHead_no_percent tplTail_no_percent a

/-- The specification side on the response template. -/
theorem replacePlaceholder_indexResponse (x : String) :
    replacePlaceholder indexResponse x = tplHead ++ x ++ tplTail := by
  unfold replacePlaceholder
  rw [indexResponse_split, replacePlaceholderChars_split _ tplHead_no_percent]
  apply String.ext
  simp

/-! ## strconv.Atoi accepts only decimal integers -/

theorem atoiFast_digits (cs : List Char) (n m : Nat) (h : atoiFast cs n = some m) :
    cs.all (fun d => decide ('0' ≤ d ∧ d ≤ '9')) = true := by
  induction cs generalizing n with
  | nil => rfl
  | cons c cs ih =>
    unfold atoiFast at h
    split at h
    · rename_i hc
      simp only [List.all_cons, Bool.and_eq_true, decide_eq_true_eq]
      exact ⟨hc, ih _ h⟩
    · cases h

theorem parseUintLoop_digits (cs : List Char) (n m : Nat) (h : parseUintLoop cs n = .ok m) :
    cs.all (fun d => decide ('0' ≤ d ∧ d ≤ '9')) = true := by
  induction cs generalizing n with
  | nil => rfl
  | cons c cs ih =>
    unfold parseUintLoop at h
    split at h
    · rename_i hc
      split at h
      · cases h
      · simp only at h
        split at h
        · cases h
        · simp only [List.all_cons, Bool.and_eq_true, decide_eq_true_eq]
          exact ⟨hc, ih _ h⟩
    · cases h

theorem ParseUint_digits (cs : List Char) (m : Nat) (h : ParseUint cs = .ok m) :
    cs ≠ [] ∧ cs.all (fun d => decide ('0' ≤ d ∧ d ≤ '9')) = true := by
  cases cs with
  | nil => cases h
  | cons c cs => exact ⟨by simp, parseUintLoop_digits _ _ _ h⟩

theorem ParseInt_decimal (s : String) (i : Int) (h : ParseInt s.data = .ok i) :
    isDecimalInteger s = true := by
  unfold isDecimalInteger
  unfold ParseInt at h
  cases hs : s.data with
  | nil => rw [hs] at h; cases h
  | cons c rest =>
    rw [hs] at h
    simp only at h
    split at h
    · cases h
    · rename_i un hu
      have := ParseUint_digits _ _ hu
      by_cases hc : c = '+' ∨ c = '-'
      · simp only [hc, if_true] at this ⊢
        have h1 := this.1
        have h2 := this.2
        simp only [List.all_eq_true, decide_eq_true_eq] at h2
        simpa [h1] using h2
      · simp only [hc, if_false] at this ⊢
        have h2 := this.2
        simp only [List.all_eq_true, decide_eq_true_eq] at h2
        simpa using h2

/-- `Atoi` succeeds only on a decimal integer. -/
theorem Atoi_decimal (s : String) (i : Int) (h : Atoi s = .ok i) :
    isDecimalInteger s = true := by
  unfold Atoi at h
  simp only at h
  split at h
  · unfold isDecimalInteger
    cases hs : s.data with
    | nil => rw [hs] at h; cases h
    | cons c rest =>
      rw [hs] at h
      simp only at h
      split at h
      · cases h
      · rename_i hlen
        split at h
        · cases h
        · rename_i n hn
          have hd := atoiFast_digits _ _ _ hn
          by_cases hc : c = '-' ∨ c = '+'
          · have hc2 : c = '+' ∨ c = '-' := hc.symm
            simp only [hc, if_true] at hd
            have hr : rest ≠ [] := by
              intro e; apply hlen; simp [hc, e]
            simp only [List.all_eq_true, decide_eq_true_eq] at hd
            simpa [hc2, hr] using hd
          · have hc2 : ¬ (c = '+' ∨ c = '-') := fun e => hc e.symm
            simp only [hc, if_false] at hd
            simp only [hc2, if_false]
            simp only [List.all_eq_true, decide_eq_true_eq] at hd
            simpa using hd
  · split at h
    · cases h
    · rename_i v hv
      exact ParseInt_decimal s v hv

/-- `Atoi` returns an error on everything else. -/
theorem Atoi_error_of_not_decimal (s : String) (h : isDecimalInteger s = false) :
    ∃ e, Atoi s = .error e := by
  cases hA : Atoi s with
  | error e => exact ⟨e, rfl⟩
  | ok i => rw [Atoi_decimal s i hA] at h; cases h

/-! ## cleanPath gives a rooted path -/

/-- Backtracking never goes below `dotdot`. -/
theorem cleanBacktrack_ge (buf : List Char) (dotdot w : Nat) (h : dotdot ≤ w) :
    dotdot ≤ cleanBacktrack buf dotdot w := by
  induction w with
  | zero => simpa [cleanBacktrack] using h
  | succ w ih =>
    unfold cleanBacktrack
    split
    · rename_i hc
      exact ih (by omega)
    · exact h

/-- On a rooted path the output keeps its leading slash. -/
theorem cleanLoop_rooted (fuel : Nat) (rest t : List Char) :
    ∃ t2, cleanLoop true fuel rest ('/' :: t) 1 = '/' :: t2 := by
  induction fuel generalizing rest t with
  | zero => exact ⟨t, by simp [cleanLoop]⟩
  | succ fuel ih =>
    cases rest with
    | nil => exact ⟨t, by simp [cleanLoop]⟩
    | cons c rest =>
      unfold cleanLoop
      split
      · exact ih _ _
      · split
        · exact ih _ _
        · split
          · split
            · rename_i hlen
              have hw := cleanBacktrack_ge ('/' :: t) 1 (('/' :: t).length - 1)
                (by simp at hlen ⊢; omega)
              obtain ⟨w, hw2⟩ : ∃ w, cleanBacktrack ('/' :: t) 1 (('/' :: t).length - 1) = w + 1 :=
                ⟨cleanBacktrack ('/' :: t) 1 (('/' :: t).length - 1) - 1, by omega⟩
              simp only [hw2, List.take_succ_cons]
              exact ih _ _
            · simp only [Bool.not_eq_true, not_true_eq_false, if_false]
              exact ih _ _
          · simp only [ne_eq, List.length_cons, List.cons_append]
            split
            · exact ih _ _
            · exact ih _ _

theorem Clean_rooted (p : String) (rest : List Char) (h : p.data = '/' :: rest) :
    ∃ t, (path.Clean p).data = '/' :: t := by
  unfold path.Clean
  rw [h]
  obtain ⟨t2, ht⟩ := cleanLoop_rooted (rest.length + 1) rest []
  simp [ht]

/-- The canonical path always starts with a slash. -/
theorem cleanPath_rooted (p : String) : ∃ t, (cleanPath p).data = '/' :: t := by
  unfold cleanPath
  split
  · exact ⟨[], rfl⟩
  · have hp1 : ∃ rest, (if p.data.head? ≠ some '/' then "/" ++ p else p).data = '/' :: rest := by
      split
      · exact ⟨p.data, rfl⟩
      · rename_i hh
        cases hd : p.data with
        | nil => simp [hd] at hh
        | cons c cs =>
          simp [hd] at hh
          exact ⟨cs, by rw [hh]⟩
    dsimp only
    generalize (if p.data.head? ≠ some '/' then "/" ++ p else p) = p1 at hp1 ⊢
    obtain ⟨rest, hrest⟩ := hp1
    obtain ⟨t, ht⟩ := Clean_rooted _ rest hrest
    split
    · split
      · exact ⟨rest, hrest⟩
      · exact ⟨t ++ ['/'], by simp [ht]⟩
    · exact ⟨t, ht⟩

/-! ## The router of main -/

/-- With a valid port and no collaborator error, `main` serves `mainMux`. -/
theorem mainRouter_eq (world : World) (port : Int) (hz : world.zapErr = none)
    (hport : Atoi world.HOST_PORT = .ok port) (hj : world.jaegerErr = none)
    (hp : world.prometheusErr = none) :
    mainRouter world = some (mainMux world.exporterServeHTTP) := by
  simp [mainRouter, main, hz, hport, NewServer, server.initTracingProvider, server.initMeter,
    server.AddHandlerFunc, server.Start, hj, hp, bind, Run.bind, emit,
    pure, Run.pure, logger.Info, liftExcept, ServeMux.HandleFunc, ServeMux.Handle,
    http.NewServeMux, listening, mainMux, List.lookup, appendSorted]

theorem lookup_cons_ite {β : Type} (k a : String) (b : β) (l : List (String × β)) :
    List.lookup k ((a, b) :: l) = if k = a then some b else List.lookup k l := by
  by_cases h : k = a
  · simp [List.lookup, h]
  · have h2 : (k == a) = false := by simpa using h
    simp [List.lookup, h, h2]

/-- Exact lookup in the route table of `main`. -/
theorem mainMux_lookup (e : HandlerFunc) (k : String) :
    (mainMux e).m.lookup k =
      if k = "/" then some { h := .otelhttp (.func handlerHomePage) "/", pattern := "/" }
      else if k = "/health" then
        some { h := .otelhttp (.func healthHandler) "/health", pattern := "/health" }
      else if k = "/create" then
        some { h := .otelhttp (.func issueCertificate) "/create", pattern := "/create" }
      else if k = "/metrics" then some { h := .func e, pattern := "/metrics" }
      else none := by
  have hm : (mainMux e).m =
      [("/", { h := .otelhttp (.func handlerHomePage) "/", pattern := "/" }),
       ("/health", { h := .otelhttp (.func healthHandler) "/health", pattern := "/health" }),
       ("/create", { h := .otelhttp (.func issueCertificate) "/create", pattern := "/create" }),
       ("/metrics", { h := .func e, pattern := "/metrics" })] := rfl
  rw [hm, lookup_cons_ite, lookup_cons_ite, lookup_cons_ite, lookup_cons_ite]
  rfl

theorem append_slash_getLast (x k : String) (h : x ++ "/" = k) : k.data.getLast? = some '/' := by
  subst h
  simp

theorem mainMux_lookup_slash (e : HandlerFunc) (x : String) (hx : x ≠ "") :
    (mainMux e).m.lookup (x ++ "/") = none := by
  have h1 : x ++ "/" ≠ "/" := by
    intro h
    apply hx
    have := congrArg String.data h
    simp at this
    exact String.ext this
  have h2 : x ++ "/" ≠ "/health" := fun h => by
    have := append_slash_getLast _ _ h; revert this; decide
  have h3 : x ++ "/" ≠ "/create" := fun h => by
    have := append_slash_getLast _ _ h; revert this; decide
  have h4 : x ++ "/" ≠ "/metrics" := fun h => by
    have := append_slash_getLast _ _ h; revert this; decide
  simp [mainMux_lookup, h1, h2, h3, h4]

/-- The route table of `main` never asks for a trailing-slash redirect. -/
theorem mainMux_shouldRedirect (e : HandlerFunc) (host p : String) (t : List Char)
    (hp : p.data = '/' :: t) :
    (mainMux e).shouldRedirectRLocked host p = false := by
  have h1 : p ≠ "" := by
    intro h; rw [h] at hp; cases hp
  have h2 : host ++ p ≠ "" := by
    intro h
    have := congrArg String.data h
    simp [hp] at this
  unfold ServeMux.shouldRedirectRLocked
  rw [mainMux_lookup_slash e p h1, mainMux_lookup_slash e (host ++ p) h2]
  simp

/-- Choice of `handler` on the route table of `main`, for a rooted path. -/
theorem mainMux_handler (e : HandlerFunc) (host p : String) (t : List Char)
    (hp : p.data = '/' :: t) :
    (mainMux e).handler host p =
      if p = "/health" then (.otelhttp (.func healthHandler) "/health", "/health")
      else if p = "/create" then (.otelhttp (.func issueCertificate) "/create", "/create")
      else if p = "/metrics" then (.func e, "/metrics")
      else (.otelhttp (.func handlerHomePage) "/", "/") := by
  have hpre : strings.HasPrefix p "/" = true := by
    simp [strings.HasPrefix, hp]
  have hh : (mainMux e).hosts = false := rfl
  have hes : (mainMux e).es = [{ h := .otelhttp (.func handlerHomePage) "/", pattern := "/" }] :=
    rfl
  unfold ServeMux.handler ServeMux.match
  simp only [mainMux_lookup, hh, hes]
  by_cases h0 : p = "/"
  · subst h0; simp
  by_cases h1 : p = "/health"
  · subst h1; simp
  by_cases h2 : p = "/create"
  · subst h2; simp
  by_cases h3 : p = "/metrics"
  · subst h3; simp
  · simp [h0, h1, h2, h3, matchPrefix, hpre]

/-- Choice of `Handler` on the route table of `main`, for a canonical path. -/
theorem mainMux_Handler (e : HandlerFunc) (stripHostPort : String → String) (r : Request)
    (hm : r.Method ≠ "CONNECT") (hc : cleanPath r.URL.Path = r.URL.Path) :
    (mainMux e).Handler stripHostPort r =
      if r.URL.Path = "/health" then (.otelhttp (.func healthHandler) "/health", "/health")
      else if r.URL.Path = "/create" then
        (.otelhttp (.func issueCertificate) "/create", "/create")
      else if r.URL.Path = "/metrics" then (.func e, "/metrics")
      else (.otelhttp (.func handlerHomePage) "/", "/") := by
  obtain ⟨t, ht⟩ := cleanPath_rooted r.URL.Path
  rw [hc] at ht
  unfold ServeMux.Handler
  simp only [hm, if_false, hc, ServeMux.redirectToPathSlash,
    mainMux_shouldRedirect e _ _ t ht]
  simp [mainMux_handler e _ _ t ht]

/-! ## Handlers: wrong method, health, home page, issuance -/

/-- Writer state after `http.Error` on a fresh writer. -/
theorem http_Error_fresh (msg : String) (code : Nat) :
    http.Error ResponseWriter.fresh msg code =
      { header := [("X-Content-Type-Options", ["nosniff"]),
                   ("Content-Type", ["text/plain; charset=utf-8"])],
        status := some code, body := msg ++ "\n" } := by
  simp [http.Error, Fprintln, ResponseWriter.Write, ResponseWriter.WriteHeader,
    ResponseWriter.HeaderSet, ResponseWriter.fresh, Values.Set]

set_option maxRecDepth 100000 in
theorem indexHtml_form :
    indexHtml = "\n<!DOCTYPE html>\n<html>\n<head>\n  <meta charset=\"UTF-8\" />\n</head>\n<body>\n<div>\n  "
      ++ formTag ++ "     \n      <label>Domain Name</label><input name=\"domain\" type=\"text\" value=\"\" />\n      <input type=\"submit\" value=\"Request Certificate\" />\n  </form>\n</div>\n</body>\n</html>\n" := by
  decide

theorem indexResponse_eq : indexResponse = tplHead ++ "%s" ++ tplTail := by
  apply String.ext
  rw [indexResponse_split]
  simp

/-- Response of `issueCertificate` to a POST, in terms of the values of the
`domain` field. -/
theorem issueCertificate_post (r : Request) (hm : r.Method = "POST") :
    issueCertificate ResponseWriter.fresh r =
      some { header := [("Content-Type", ["text/html; charset=utf-8"])], status := some 200,
             body := tplHead ++ ("[" ++ joinWithSpaces (r.ParseForm.FormIndex "domain") ++ "]")
                       ++ tplTail } := by
  simp [issueCertificate, hm, Fprintf, Sprintf_indexResponse, printArg, printElems_zero,
    ResponseWriter.Write, ResponseWriter.WriteHeader,
    ResponseWriter.HeaderSet, ResponseWriter.fresh, Values.Set, StatusOK]

/-- C1, counterexample: a POST to `handlerHomePage` gets status 404, but the
body is the message followed by a newline, not the bare message. -/
theorem C1_counterexample :
    (handlerHomePage ResponseWriter.fresh (mkRequest "POST" "/" [])).map ResponseWriter.status
      = some (some 404) ∧
    (handlerHomePage ResponseWriter.fresh (mkRequest "POST" "/" [])).map ResponseWriter.body
      = some "Method is not supported.\n" ∧
    (handlerHomePage ResponseWriter.fresh (mkRequest "POST" "/" [])).map ResponseWriter.body
      ≠ some "Method is not supported." := by
  decide

/-- C1, amended: for every request whose method is not exactly "GET",
`handlerHomePage` and `healthHandler` respond with status 404 and the body
"Method is not supported." followed by one newline; for every request whose
method is not exactly "POST", `issueCertificate` responds with that status and
that body. -/
theorem C1_wrong_method (h : HandlerFunc) (r : Request)
    (hm : (h = handlerHomePage ∨ h = healthHandler) ∧ r.Method ≠ "GET" ∨
          h = issueCertificate ∧ r.Method ≠ "POST") :
    ∃ w, h ResponseWriter.fresh r = some w ∧ w.status = some 404 ∧
      w.body = "Method is not supported.\n" := by
  refine ⟨http.Error ResponseWriter.fresh "Method is not supported." StatusNotFound, ?_, ?_, ?_⟩
  · rcases hm with ⟨h1 | h1, h2⟩ | ⟨h1, h2⟩ <;> subst h1
    · simp [handlerHomePage, h2]
    · simp [healthHandler, h2]
    · simp [issueCertificate, h2]
  · rw [http_Error_fresh]; rfl
  · rw [http_Error_fresh]; rfl

/-- C1, witness: a DELETE to `healthHandler`. -/
theorem C1_witness :
    ∃ w, healthHandler ResponseWriter.fresh (mkRequest "DELETE" "/health" []) = some w ∧
      w.status = some 404 ∧ w.body = "Method is not supported.\n" :=
  C1_wrong_method healthHandler (mkRequest "DELETE" "/health" [])
    (Or.inl ⟨Or.inr rfl, by decide⟩)

/-- C2: for every string `d`, a POST to `issueCertificate` whose form carries
the single field `domain=d` gets status 200 and a body that is the
`indexResponse` template with `d`, unmodified, inside it (between the text
before the `%s` directive plus `[` and `]` plus the text after it); so `d` is
a substring of the body whatever characters it holds. -/
theorem C2_domain_echo (d : String) (r : Request) (hm : r.Method = "POST")
    (hn : r.Form = none) (hf : r.formData = [("domain", [d])]) :
    ∃ w, issueCertificate ResponseWriter.fresh r = some w ∧ w.status = some 200 ∧
      indexResponse = tplHead ++ "%s" ++ tplTail ∧
      w.body = tplHead ++ "[" ++ d ++ "]" ++ tplTail ∧
      ∃ pre post, w.body = pre ++ d ++ post := by
  have hv : r.ParseForm.FormIndex "domain" = [d] := by
    simp [Request.ParseForm, Request.FormIndex, hn, hf, Values.index, List.lookup]
  refine ⟨_, issueCertificate_post r hm, rfl, indexResponse_eq, ?_, tplHead ++ "[",
    "]" ++ tplTail, ?_⟩
  · simp [hv, joinWithSpaces, String.intercalate, String.intercalate.go, String.append_assoc]
  · simp [hv, joinWithSpaces, String.intercalate, String.intercalate.go, String.append_assoc]

/-- C2, witness: a domain made of HTML metacharacters comes back as it is. -/
theorem C2_witness :
    ∃ w, issueCertificate ResponseWriter.fresh
        (mkRequest "POST" "/create" [("domain", ["<b>&\"x\"</b>"])]) = some w ∧
      w.status = some 200 ∧
      indexResponse = tplHead ++ "%s" ++ tplTail ∧
      w.body = tplHead ++ "[" ++ "<b>&\"x\"</b>" ++ "]" ++ tplTail ∧
      ∃ pre post, w.body = pre ++ "<b>&\"x\"</b>" ++ post :=
  C2_domain_echo "<b>&\"x\"</b>" (mkRequest "POST" "/create" [("domain", ["<b>&\"x\"</b>"])])
    rfl rfl rfl

/-- C3: for every GET request, whatever its path, headers and body,
`healthHandler` responds with status 200, the header `Content-Type` set to
`application/json; charset=utf-8`, and the body exactly `{"status": "UP"}`. -/
theorem C3_health_get (r : Request) (hm : r.Method = "GET") :
    ∃ w, healthHandler ResponseWriter.fresh r = some w ∧ w.status = some 200 ∧
      w.header.Get "Content-Type" = "application/json; charset=utf-8" ∧
      w.body = "\x7b\"status\": \"UP\"\x7d" := by
  refine ⟨{ header := [("Content-Type", ["application/json; charset=utf-8"])],
            status := some 200, body := "\x7b\"status\": \"UP\"\x7d" }, ?_, rfl, by decide, rfl⟩
  simp [healthHandler, hm, Fprint, ResponseWriter.Write, ResponseWriter.WriteHeader,
    ResponseWriter.HeaderSet, ResponseWriter.fresh, Values.Set, StatusOK]

/-- C3, witness: a GET with another path and a form. -/
theorem C3_witness :
    ∃ w, healthHandler ResponseWriter.fresh
        (mkRequest "GET" "/any/path" [("x", ["y"])]) = some w ∧ w.status = some 200 ∧
      w.header.Get "Content-Type" = "application/json; charset=utf-8" ∧
      w.body = "\x7b\"status\": \"UP\"\x7d" :=
  C3_health_get (mkRequest "GET" "/any/path" [("x", ["y"])]) (by decide)

/-- C4: for every GET request, `handlerHomePage` responds with status 200, a
`Content-Type` of media type `text/html` (the value is
`text/html; charset=utf-8`), and a body equal to `indexHtml`, which contains
the form element that posts to `/create`. -/
theorem C4_home_get (r : Request) (hm : r.Method = "GET") :
    ∃ w, handlerHomePage ResponseWriter.fresh r = some w ∧ w.status = some 200 ∧
      w.header.Get "Content-Type" = "text/html" ++ "; charset=utf-8" ∧
      w.body = indexHtml ∧
      ∃ pre post, indexHtml = pre ++ "<form method=\"POST\" action=\"/create\">" ++ post := by
  refine ⟨{ header := [("Content-Type", ["text/html; charset=utf-8"])],
            status := some 200, body := indexHtml }, ?_, rfl, by decide, rfl, ?_⟩
  · simp [handlerHomePage, hm, Fprint, ResponseWriter.Write, ResponseWriter.WriteHeader,
      ResponseWriter.HeaderSet, ResponseWriter.fresh, Values.Set, StatusOK]
  · exact ⟨_, _, indexHtml_form⟩

/-- C4, witness: a plain GET of the root. -/
theorem C4_witness :
    ∃ w, handlerHomePage ResponseWriter.fresh (mkRequest "GET" "/" []) = some w ∧
      w.status = some 200 ∧
      w.header.Get "Content-Type" = "text/html" ++ "; charset=utf-8" ∧
      w.body = indexHtml ∧
      ∃ pre post, indexHtml = pre ++ "<form method=\"POST\" action=\"/create\">" ++ post :=
  C4_home_get (mkRequest "GET" "/" []) (by decide)

/-! ## Registration, shutdown, startup, dispatch -/

/-- C5, counterexample: on a server with an empty route table, registering
`healthHandler` and then `handlerHomePage` at `/x` does not succeed: the second
call panics, so nothing is overwritten. -/
theorem C5_counterexample :
    (registerTwice bareServer "/x" healthHandler handlerHomePage).result
      = .error (.panic "http: multiple registrations for /x") := by
  rfl

/-- C5, amended: for every non-empty path `p` not yet registered on the
server and handlers `A` and `B`, `AddHandlerFunc(p, A)` succeeds and the
router then matches `p` to `A` (wrapped under the operation name `p`); a
following `AddHandlerFunc(p, B)` on the same server does not overwrite the
entry: it panics with "http: multiple registrations for " followed by `p`. -/
theorem C5_first_registration_stays (s : server) (p : String) (A B : HandlerFunc)
    (hp : p ≠ "") (hnew : s.router.m.lookup p = none) :
    ∃ s1, (s.AddHandlerFunc p A).result = .ok s1 ∧
      s1.router.match p = some { h := .otelhttp (.func A) p, pattern := p } ∧
      (s1.AddHandlerFunc p B).result = .error (.panic ("http: multiple registrations for " ++ p)) ∧
      (registerTwice s p A B).result
        = .error (.panic ("http: multiple registrations for " ++ p)) := by
  simp [registerTwice, server.AddHandlerFunc, ServeMux.Handle, ServeMux.match, hp, hnew, bind,
    Run.bind, pure, Run.pure, liftExcept, List.lookup]

/-- C5, witness: the path `/x` on a server with an empty route table. -/
theorem C5_witness :
    ∃ s1, (bareServer.AddHandlerFunc "/x" healthHandler).result = .ok s1 ∧
      s1.router.match "/x" = some { h := .otelhttp (.func healthHandler) "/x", pattern := "/x" } ∧
      (s1.AddHandlerFunc "/x" handlerHomePage).result
        = .error (.panic ("http: multiple registrations for " ++ "/x")) ∧
      (registerTwice bareServer "/x" healthHandler handlerHomePage).result
        = .error (.panic ("http: multiple registrations for " ++ "/x")) :=
  C5_first_registration_stays bareServer "/x" healthHandler handlerHomePage (by decide) rfl

/-- C6: for every signal, `signalHandler` logs the signal, sleeps one second,
calls the flush callback exactly once, after the sleep, and then exits with
status 0; the signal only decides whether one more log line is written
before the flush. -/
theorem C6_signalHandler (s : server) (sig : Signal) :
    (s.signalHandler sig).result = .error (.exit 0) ∧
      (s.signalHandler sig).trace =
        [Effect.log .info "caught signal" [.String "signal" (Signal.String sig)],
         Effect.log .info "wait for 1 second to finish processing" [],
         Effect.Sleep (1 * Second)]
        ++ (if sig = SIGHUP ∨ sig = SIGINT ∨ sig = SIGTERM ∨ sig = SIGQUIT then []
            else [Effect.log .info "os term signal captured shutting down http server..." []])
        ++ [Effect.flushTraceCB, Effect.log .info "finished server cleanup" []] ∧
      (s.signalHandler sig).trace.countP Effect.isFlush = 1 := by
  by_cases h1 : sig = SIGHUP
  · simp [server.signalHandler, h1, bind, Run.bind, emit, os.Exit, logger.Info, pure, Run.pure,
      Effect.isFlush, Second]
  by_cases h2 : sig = SIGINT
  · simp [server.signalHandler, h1, h2, bind, Run.bind, emit, os.Exit, logger.Info, pure, Run.pure,
      Effect.isFlush, Second]
  by_cases h3 : sig = SIGTERM
  · simp [server.signalHandler, h1, h2, h3, bind, Run.bind, emit, os.Exit, logger.Info, pure,
      Run.pure, Effect.isFlush, Second]
  by_cases h4 : sig = SIGQUIT
  · simp [server.signalHandler, h1, h2, h3, h4, bind, Run.bind, emit, os.Exit, logger.Info, pure,
      Run.pure, Effect.isFlush, Second]
  · simp [server.signalHandler, h1, h2, h3, h4, bind, Run.bind, emit, os.Exit, logger.Info, pure,
      Run.pure, Effect.isFlush, Second]

/-- C7: for every value of `HOST_PORT` that is empty or not a decimal integer,
`main` stops with exit status 1 and its trace holds no effect of `NewServer`
or `Start`: no pipeline is installed and `ListenAndServe` is never called. -/
theorem C7_invalid_port_exits (world : World)
    (h : world.HOST_PORT = "" ∨ isDecimalInteger world.HOST_PORT = false) :
    (main world).result = .error (.exit 1) ∧
      (main world).trace.any Effect.startsServer = false ∧
      listening (main world).trace = none := by
  have hd : isDecimalInteger world.HOST_PORT = false := by
    rcases h with h | h
    · rw [h]; rfl
    · exact h
  obtain ⟨e, he⟩ := Atoi_error_of_not_decimal _ hd
  cases hz : world.zapErr with
  | some z =>
    simp [main, hz, bind, Run.bind, emit, os.Exit, Effect.startsServer, listening]
  | none =>
    simp [main, hz, he, bind, Run.bind, emit, os.Exit, logger.Fatal, Effect.startsServer,
      listening]

/-- C7, witness: the port `80a`. -/
theorem C7_witness :
    (main (quietWorld "80a")).result = .error (.exit 1) ∧
      (main (quietWorld "80a")).trace.any Effect.startsServer = false ∧
      listening (main (quietWorld "80a")).trace = none :=
  C7_invalid_port_exits (quietWorld "80a") (Or.inr (by decide))

/-- C8, counterexample: `NewServer` returns a server for the ports 0, -1 and
70000, and the server it returns for port 8080 already has `/metrics` in its
route table. -/
theorem C8_counterexample :
    (NewServer (quietWorld "0") "certinator" 0).result.toOption.map server.appPort = some 0 ∧
    (NewServer (quietWorld "-1") "certinator" (-1)).result.toOption.map server.appPort
      = some (-1) ∧
    (NewServer (quietWorld "70000") "certinator" 70000).result.toOption.map server.appPort
      = some 70000 ∧
    (NewServer (quietWorld "8080") "certinator" 8080).result.toOption.map
      (fun s => s.router.m.map Prod.fst) = some ["/metrics"] := by
  decide

/-- C8, amended: `NewServer` does not validate its port argument: for every
integer port, inside or outside the TCP port range, once the jaeger and
prometheus pipelines install without error it returns a server with that port
and a route table that holds the single entry `/metrics`. -/
theorem C8_NewServer_any_port (world : World) (serviceName : String) (port : Int)
    (hj : world.jaegerErr = none) (hp : world.prometheusErr = none) :
    ∃ s, (NewServer world serviceName port).result = .ok s ∧ s.appPort = port ∧
      s.router.m.map Prod.fst = ["/metrics"] := by
  simp [NewServer, server.initTracingProvider, server.initMeter, hj, hp, bind, Run.bind, emit,
    pure, Run.pure, logger.Info, liftExcept, ServeMux.HandleFunc, ServeMux.Handle,
    http.NewServeMux]

/-- C8, witness: port 0. -/
theorem C8_witness :
    ∃ s, (NewServer (quietWorld "0") "certinator" 0).result = .ok s ∧ s.appPort = 0 ∧
      s.router.m.map Prod.fst = ["/metrics"] :=
  C8_NewServer_any_port (quietWorld "0") "certinator" 0 rfl rfl

/-- Response of a handler of `main` behind the `otelhttp` wrapper: the
response of the bare handler with the header `Traceparent` added; status and
body are the handler's own. -/
theorem otelhttp_response (h : HandlerFunc)
    (hh : h = issueCertificate ∨ h = healthHandler ∨ h = handlerHomePage)
    (operation : String) (traceparent : String → Request → String)
    (Redirect : ResponseWriter → Request → URL → Nat → ResponseWriter) (r : Request) :
    (http.Handler.otelhttp (.func h) operation).ServeHTTP traceparent Redirect
        ResponseWriter.fresh r
      = (h ResponseWriter.fresh r).map
          (fun w => { w with header := w.header.Set "Traceparent" (traceparent operation r) }) := by
  rcases hh with e | e | e <;> subst e
  · by_cases hm : r.Method = "POST"
    · simp [http.Handler.ServeHTTP, issueCertificate, hm, Fprintf, Sprintf_indexResponse,
        ResponseWriter.Write, ResponseWriter.WriteHeader, ResponseWriter.HeaderSet,
        ResponseWriter.fresh, Values.Set, StatusOK]
    · simp [http.Handler.ServeHTTP, issueCertificate, hm, http.Error, Fprintln,
        ResponseWriter.Write, ResponseWriter.WriteHeader, ResponseWriter.HeaderSet,
        ResponseWriter.fresh, Values.Set, StatusOK]
  · by_cases hm : r.Method = "GET"
    · simp [http.Handler.ServeHTTP, healthHandler, hm, Fprint,
        ResponseWriter.Write, ResponseWriter.WriteHeader, ResponseWriter.HeaderSet,
        ResponseWriter.fresh, Values.Set, StatusOK]
    · simp [http.Handler.ServeHTTP, healthHandler, hm, http.Error, Fprintln,
        ResponseWriter.Write, ResponseWriter.WriteHeader, ResponseWriter.HeaderSet,
        ResponseWriter.fresh, Values.Set, StatusOK]
  · by_cases hm : r.Method = "GET"
    · simp [http.Handler.ServeHTTP, handlerHomePage, hm, Fprint,
        ResponseWriter.Write, ResponseWriter.WriteHeader, ResponseWriter.HeaderSet,
        ResponseWriter.fresh, Values.Set, StatusOK]
    · simp [http.Handler.ServeHTTP, handlerHomePage, hm, http.Error, Fprintln,
        ResponseWriter.Write, ResponseWriter.WriteHeader, ResponseWriter.HeaderSet,
        ResponseWriter.fresh, Values.Set, StatusOK]

/-- Status and body behind the `otelhttp` wrapper are those of the bare handler. -/
theorem otelhttp_status_body (h : HandlerFunc)
    (hh : h = issueCertificate ∨ h = healthHandler ∨ h = handlerHomePage)
    (operation : String) (traceparent : String → Request → String)
    (Redirect : ResponseWriter → Request → URL → Nat → ResponseWriter) (r : Request) :
    ((http.Handler.otelhttp (.func h) operation).ServeHTTP traceparent Redirect
        ResponseWriter.fresh r).map ResponseWriter.status
      = (h ResponseWriter.fresh r).map ResponseWriter.status ∧
    ((http.Handler.otelhttp (.func h) operation).ServeHTTP traceparent Redirect
        ResponseWriter.fresh r).map ResponseWriter.body
      = (h ResponseWriter.fresh r).map ResponseWriter.body := by
  rw [otelhttp_response h hh]
  cases h ResponseWriter.fresh r <;> simp

set_option maxRecDepth 100000 in
/-- C9, counterexample: `/foo` is not a registered path, yet the router of
`main` chooses the pattern `/` for a GET of `/foo` and the response has the
status and the body `handlerHomePage` writes: 200 and the home page. -/
theorem C9_counterexample :
    "/foo" ∉ ["/create", "/health", "/", "/metrics"] ∧
    (mainHandler (quietWorld "8080") id (mkRequest "GET" "/foo" [])).map Prod.snd = some "/" ∧
    (mainServe (quietWorld "8080") id fixedTraceparent bareRedirect
        (mkRequest "GET" "/foo" [])).map ResponseWriter.status = some (some 200) ∧
    (mainServe (quietWorld "8080") id fixedTraceparent bareRedirect
        (mkRequest "GET" "/foo" [])).map ResponseWriter.body = some indexHtml ∧
    (handlerHomePage ResponseWriter.fresh (mkRequest "GET" "/foo" [])).map ResponseWriter.body
      = some indexHtml := by
  decide

/-- C9, amended: in the server built by `main`, for every request other than
CONNECT and other than `*` whose path `p` is in canonical form, `p` equal to
`/create`, `/health` or `/metrics` invokes exactly the handler registered at
that path, and every other `p`, that is `/` and every unregistered path such
as `/foo`, invokes `handlerHomePage`, the handler registered at `/`: a
pattern that ends in a slash matches every path below it.  The status and the
body of the response are the ones the invoked handler writes. -/
theorem C9_dispatch (world : World) (port : Int) (stripHostPort : String → String)
    (traceparent : String → Request → String)
    (Redirect : ResponseWriter → Request → URL → Nat → ResponseWriter) (r : Request)
    (hz : world.zapErr = none) (hport : Atoi world.HOST_PORT = .ok port)
    (hj : world.jaegerErr = none) (hp : world.prometheusErr = none)
    (hm : r.Method ≠ "CONNECT") (hu : r.RequestURI ≠ "*")
    (hc : cleanPath r.URL.Path = r.URL.Path) :
    mainHandler world stripHostPort r = some
      (if r.URL.Path = "/health" then (.otelhttp (.func healthHandler) "/health", "/health")
       else if r.URL.Path = "/create" then
         (.otelhttp (.func issueCertificate) "/create", "/create")
       else if r.URL.Path = "/metrics" then (.func world.exporterServeHTTP, "/metrics")
       else (.otelhttp (.func handlerHomePage) "/", "/")) ∧
    (mainServe world stripHostPort traceparent Redirect r).map ResponseWriter.status =
      ((if r.URL.Path = "/health" then healthHandler
        else if r.URL.Path = "/create" then issueCertificate
        else if r.URL.Path = "/metrics" then world.exporterServeHTTP
        else handlerHomePage) ResponseWriter.fresh r).map ResponseWriter.status ∧
    (mainServe world stripHostPort traceparent Redirect r).map ResponseWriter.body =
      ((if r.URL.Path = "/health" then healthHandler
        else if r.URL.Path = "/create" then issueCertificate
        else if r.URL.Path = "/metrics" then world.exporterServeHTTP
        else handlerHomePage) ResponseWriter.fresh r).map ResponseWriter.body := by
  have hr := mainRouter_eq world port hz hport hj hp
  have hH := mainMux_Handler world.exporterServeHTTP stripHostPort r hm hc
  refine ⟨?_, ?_⟩
  · simp only [mainHandler, hr, hH]
  · simp only [mainServe, hr, ServeMux.ServeHTTP, hu, if_false, hH]
    split
    · exact otelhttp_status_body healthHandler (Or.inr (Or.inl rfl)) _ _ _ r
    · split
      · exact otelhttp_status_body issueCertificate (Or.inl rfl) _ _ _ r
      · split
        · exact ⟨rfl, rfl⟩
        · exact otelhttp_status_body handlerHomePage (Or.inr (Or.inr rfl)) _ _ _ r

/-- C9, witness: a GET of `/foo` on port 8080. -/
theorem C9_witness :
    mainHandler (quietWorld "8080") id (mkRequest "GET" "/foo" []) = some
      (if (mkRequest "GET" "/foo" []).URL.Path = "/health" then
         (.otelhttp (.func healthHandler) "/health", "/health")
       else if (mkRequest "GET" "/foo" []).URL.Path = "/create" then
         (.otelhttp (.func issueCertificate) "/create", "/create")
       else if (mkRequest "GET" "/foo" []).URL.Path = "/metrics" then
         (.func (quietWorld "8080").exporterServeHTTP, "/metrics")
       else (.otelhttp (.func handlerHomePage) "/", "/")) ∧
    (mainServe (quietWorld "8080") id fixedTraceparent bareRedirect
        (mkRequest "GET" "/foo" [])).map ResponseWriter.status =
      ((if (mkRequest "GET" "/foo" []).URL.Path = "/health" then healthHandler
        else if (mkRequest "GET" "/foo" []).URL.Path = "/create" then issueCertificate
        else if (mkRequest "GET" "/foo" []).URL.Path = "/metrics" then
          (quietWorld "8080").exporterServeHTTP
        else handlerHomePage) ResponseWriter.fresh (mkRequest "GET" "/foo" [])).map
        ResponseWriter.status ∧
    (mainServe (quietWorld "8080") id fixedTraceparent bareRedirect
        (mkRequest "GET" "/foo" [])).map ResponseWriter.body =
      ((if (mkRequest "GET" "/foo" []).URL.Path = "/health" then healthHandler
        else if (mkRequest "GET" "/foo" []).URL.Path = "/create" then issueCertificate
        else if (mkRequest "GET" "/foo" []).URL.Path = "/metrics" then
          (quietWorld "8080").exporterServeHTTP
        else handlerHomePage) ResponseWriter.fresh (mkRequest "GET" "/foo" [])).map
        ResponseWriter.body :=
  C9_dispatch (quietWorld "8080") 8080 id fixedTraceparent bareRedirect
    (mkRequest "GET" "/foo" []) rfl rfl rfl rfl (by decide) (by decide) (by decide)

/-- C10: for every POST request whose parsed form holds the values `vs` for
the field `domain`, the body written by `issueCertificate` is the
`indexResponse` template with its `%s` placeholder replaced by `[`, the values
joined with single spaces, `]`; one value `d` gives `[d]` and no value gives
`[]`. -/
theorem C10_body (vs : List String) (r : Request) (hm : r.Method = "POST")
    (hf : r.ParseForm.FormIndex "domain" = vs) :
    (∃ w, issueCertificate ResponseWriter.fresh r = some w ∧
      w.body = replacePlaceholder indexResponse ("[" ++ joinWithSpaces vs ++ "]")) ∧
    joinWithSpaces [] = "" ∧ ∀ d, joinWithSpaces [d] = d := by
  refine ⟨⟨_, issueCertificate_post r hm, ?_⟩, rfl, fun d => rfl⟩
  rw [replacePlaceholder_indexResponse, hf]

/-- C10, witness: two values for `domain`. -/
theorem C10_witness :
    (∃ w, issueCertificate ResponseWriter.fresh
        (mkRequest "POST" "/create" [("domain", ["a.example", "b.example"])]) = some w ∧
      w.body = replacePlaceholder indexResponse
        ("[" ++ joinWithSpaces ["a.example", "b.example"] ++ "]")) ∧
    joinWithSpaces [] = "" ∧ ∀ d, joinWithSpaces [d] = d :=
  C10_body ["a.example", "b.example"]
    (mkRequest "POST" "/create" [("domain", ["a.example", "b.example"])]) rfl rfl

end Certinator
